import Mathlib

/-!
Verification development for the hipercam per-frame aperture-tracking and
flux-extraction engine.

The definitions below are a shallow embedding of the Python source:

* `Group` embeds `hipercam/group.py` (`Group.__init__`, `Group.__setitem__`):
  an ordered map (list of key/value pairs in insertion order) together with
  the `otype` attribute, with the checks performed in the order the source
  performs them.  Python exceptions are modelled by returning the unchanged
  state paired with `some errorMessage`.
* The frame loop, pool creation and calibration step embed
  `hipercam/scripts/reduce.py`.
* The profile-fit position update embeds `hipercam/scripts/rtplot.py`.
* Components whose code lives in `hipercam/reduction.py` (not part of the
  sources examined here) are modelled from the specification; each such
  definition says so in its doc comment.
-/

namespace Hcam

/-- A stored Python object as `Group` sees it: `tag` stands for the object's
Python type (`type(obj)`), `val` for its payload (used by its `clash`
method). -/
structure GItem where
  tag : Nat
  val : Int
deriving DecidableEq, Repr

/-- A Python dictionary key: either an `int` or some non-integer key
(modelled by a string, e.g. a keyword-argument name). -/
inductive PyKey where
  | int (n : Int)
  | str (s : String)
deriving DecidableEq, Repr

/-- The observable state of a `Group` (`hipercam/group.py`): the underlying
`OrderedDict` contents (integer keys, insertion order preserved) plus the
`otype` attribute set by `__init__`. -/
structure Group where
  entries : List (Int × GItem)
  otype : Option Nat
deriving DecidableEq, Repr

/-- `OrderedDict.__setitem__`: replace in place when the key is present
(keeping its position), append otherwise. -/
def odSet : List (Int × GItem) → Int → GItem → List (Int × GItem)
  | [], k, it => [(k, it)]
  | (k0, it0) :: rest, k, it =>
      if k0 = k then (k, it) :: rest else (k0, it0) :: odSet rest k it

/-- `Group.__setitem__` (`group.py` lines 68-90), run on state `g`:
check the key is an integer; check the item's type against `self.otype`
when that is not `None`; run `item.clash(obj)` against every current member
(`clash it q = true` models "the clash method raises"); only after all
checks pass, store the item.  Returns the resulting state and `some msg`
when an exception was raised. -/
def Group.setitemRun (clash : GItem → GItem → Bool) (g : Group)
    (k : PyKey) (item : GItem) : Group × Option String :=
  match k with
  | .str _ => (g, some "Group.__setitem__: key must be an integer")
  | .int n =>
    match g.otype with
    | some t =>
      if item.tag ≠ t then
        (g, some "Group.__setitem__: item type differs from existing Group data type")
      else if g.entries.any (fun q => clash item q.2) then
        (g, some "clash")
      else
        ({ g with entries := odSet g.entries n item }, none)
    | none =>
      if g.entries.any (fun q => clash item q.2) then
        (g, some "clash")
      else
        ({ g with entries := odSet g.entries n item }, none)

/-- Insert the argument pairs one by one through `__setitem__`, as
`OrderedDict.__init__` does (it routes every pair through the overridden
`__setitem__`); the first exception aborts construction. -/
def Group.insertAll (clash : GItem → GItem → Bool) :
    Group → List (PyKey × GItem) → Except String Group
  | g, [] => .ok g
  | g, (k, it) :: rest =>
    match Group.setitemRun clash g k it with
    | (g1, none) => Group.insertAll clash g1 rest
    | (_, some e) => .error e

/-- `true` iff some ordered pair of distinct members clashes; models the
`for i, ob in enumerate(objs): for obj in objs[i+1:]: ob.clash(obj)` loop of
`Group.__init__`. -/
def pairClashChk (clash : GItem → GItem → Bool) : List GItem → Bool
  | [] => false
  | x :: rest => rest.any (clash x) || pairClashChk clash rest

/-- `Group.__init__` (`group.py` lines 29-66): start from the empty dict
with `otype = None`, insert all arguments via `__setitem__`, then run the
construction-time checks: keys are integers (already guaranteed by
`__setitem__`), all objects share one type (which becomes `otype`), and no
ordered pair of members clashes. -/
def Group.init (clash : GItem → GItem → Bool)
    (pairs : List (PyKey × GItem)) : Except String Group :=
  match Group.insertAll clash { entries := [], otype := none } pairs with
  | .error e => .error e
  | .ok g =>
    match g.entries with
    | [] => .ok g
    | (_, it0) :: rest =>
      if rest.all (fun p => p.2.tag = it0.tag) then
        if pairClashChk clash (g.entries.map (fun p => p.2)) then
          .error "clash"
        else
          .ok { g with otype := some it0.tag }
      else
        .error "Group.__init__: more than one object type"

/-- All stored objects of the group share one Python type. -/
def Group.homogeneous (g : Group) : Prop :=
  ∀ p ∈ g.entries, ∀ q ∈ g.entries, p.2.tag = q.2.tag

/-- No earlier member's `clash` rejects a later member (the direction the
construction-time pairwise loop checks). -/
def Group.noPairClash (clash : GItem → GItem → Bool) (g : Group) : Prop :=
  g.entries.Pairwise (fun p q => clash p.2 q.2 = false)

/-- Profile-fit state of one target in `rtplot` (`rtplot.py`, class `Fpar`):
position, enclosing window label, target number, search-box half width, and
the profile parameters seeded into the next fit. -/
structure Fpar where
  x : ℚ
  y : ℚ
  wnam : String
  ntarg : Nat
  shbox : ℚ
  fwhm : ℚ
  beta : ℚ
deriving DecidableEq, Repr

/-- Profile model selector of `rtplot`/the tracker: `g` = gaussian,
`m` = moffat (two-parameter profile). -/
inductive FitMethod where
  | g
  | m
deriving DecidableEq, Repr

/-- The post-fit update of `rtplot` (`rtplot.py` lines 886-935): the fitted
position and profile parameters are written back into `fpar` only when the
search-box `peak` exceeds `hmin` and the fitted centre lies more than one
pixel inside the window (`dist`); otherwise every field of `fpar` is left as
it was ("below detection threshold; position & FWHM will not updated"). -/
def rtplotUpdate (method : FitMethod) (fpar : Fpar)
    (peak hmin dist x y fwhm beta : ℚ) : Fpar :=
  if peak > hmin ∧ dist > 1 then
    match method with
    | .g => { fpar with x := x, y := y, fwhm := fwhm }
    | .m => { fpar with x := x, y := y, fwhm := fwhm, beta := beta }
  else
    fpar

/-- Tracked state of one aperture (position and profile shape), as held
across frames by the Aperture Tracker. -/
structure TrackState where
  x : ℚ
  y : ℚ
  fwhm : ℚ
  beta : ℚ
deriving DecidableEq, Repr

/-- Outcome of one profile fit: fitted peak height, centre and shape. -/
structure ApFit where
  height : ℚ
  x : ℚ
  y : ℚ
  fwhm : ℚ
  beta : ℚ
deriving DecidableEq, Repr

/-- Modelled from the spec: the per-aperture acceptance step of `moveApers`
(`hipercam/reduction.py`, not among the sources here).  Spec §4.1: "if the
fitted peak height is below the configured minimum, or the best-fit width
falls outside [min, max], the aperture's position/shape is not updated for
this frame — the previous value is retained and a fit-quality flag is set".
Returns the new tracked state and the fit-quality ("error") flag. -/
def moveAperUpdate (hminRef fmin fmax : ℚ) (ap : TrackState) (fit : ApFit) :
    TrackState × Bool :=
  if fit.height < hminRef ∨ fit.fwhm < fmin ∨ fmax < fit.fwhm then
    (ap, true)
  else
    ({ x := fit.x, y := fit.y, fwhm := fit.fwhm, beta := fit.beta }, false)

/-- One measurement aperture: its integer label and the pixel indices it
covers. -/
structure Aper where
  id : Nat
  mask : List Nat
deriving DecidableEq, Repr

/-- One detector's inputs for a frame: the retained raw pixel values
(`rccd` in `reduce.py`), the debiased/flat-fielded pixel values (`pccd`),
and the detector's apertures. -/
structure CCDData where
  raw : List Int
  proc : List Int
  apers : List Aper
deriving DecidableEq, Repr

/-- One aperture's extraction outcome (spec §3 `ExtractionResult`): flux,
saturation flag, and fit-quality/failure flag. -/
structure ExtractionResult where
  apid : Nat
  flux : Int
  saturated : Bool
  flagged : Bool
deriving DecidableEq, Repr

/-- Modelled from the spec: flux extraction for one aperture (`extractFlux`
in `hipercam/reduction.py`, not among the sources here).  The flux is the
sum of processed pixel values inside the aperture; the saturation flag is
set from the retained raw frame (spec §4.2: "any pixel within the aperture
whose raw (pre-calibration) value meets or exceeds the detector's
saturation level marks the result as saturated; the reported flux is still
computed"); numerical edge cases (an empty mask) set the quality flag
instead of raising. -/
def extractOne (sat : Int) (d : CCDData) (ap : Aper) : ExtractionResult :=
  { apid := ap.id
    flux := (ap.mask.map (fun i => d.proc.getD i 0)).sum
    saturated := ap.mask.any (fun i => sat ≤ d.raw.getD i 0)
    flagged := ap.mask.isEmpty }

/-- Modelled from the spec: flux extraction over a detector's apertures —
one `ExtractionResult` per aperture, always. -/
def extractFluxM (sat : Int) (d : CCDData) : List ExtractionResult :=
  d.apers.map (extractOne sat d)

/-- The flagged placeholder result a per-detector failure produces for one
aperture (spec §4.3: a caught exception is "converted into a per-detector
failure result (flagged, zero valid apertures)"). -/
def flaggedResult (ap : Aper) : ExtractionResult :=
  { apid := ap.id, flux := 0, saturated := false, flagged := true }

/-- Modelled from the spec: processing of one detector inside the frame
loop, with failure isolation (`process_ccds` in `hipercam/reduction.py`,
not among the sources here).  `fails cnam = true` models an exception
raised while that detector is processed; it is absorbed into flagged
results rather than propagating. -/
def procOneCCD (fails : String → Bool) (sat : Int)
    (cnam : String) (d : CCDData) : List ExtractionResult :=
  if fails cnam then d.apers.map flaggedResult else extractFluxM sat d

/-- Modelled from the spec: serial per-frame processing — each detector in
the frame's canonical order is processed and its results kept under its
name, and each failed detector contributes one alert string. -/
def processFrame (fails : String → Bool) (sat : Int)
    (frame : List (String × CCDData)) :
    List (String × List ExtractionResult) × List String :=
  (frame.map (fun p => (p.1, procOneCCD fails sat p.1 p.2)),
   (frame.filter (fun p => fails p.1)).map
     (fun p => "detector " ++ p.1 ++ " failed"))

/-- Modelled from the spec: the worker pool returns per-detector results in
completion order; each completed detector carries its name and its
results.  `completed` is the frame's detectors in the order the workers
finished. -/
def collectResults (fails : String → Bool) (sat : Int)
    (completed : List (String × CCDData)) :
    List (String × List ExtractionResult) :=
  completed.map (fun p => (p.1, procOneCCD fails sat p.1 p.2))

/-- Modelled from the spec: the dispatcher's merge — walk the frame's
canonical detector order and pick each detector's results out of the
completion-ordered collection, keyed by detector name (spec §4.3:
"preserving the frame's canonical detector ordering in the merged
output"). -/
def mergeCanonical (canon : List String)
    (collected : List (String × List ExtractionResult)) :
    List (String × List ExtractionResult) :=
  canon.filterMap
    (fun c => (collected.find? (fun q => q.1 = c)).map (fun q => (c, q.2)))

/-- Pool creation of `reduce.py` lines 332-336: `ncpu` is read from the
reduce file, and `multiprocessing.Pool(processes=ncpu)` is created only
when `ncpu > 1`; otherwise `pool = None`. -/
def mkPool (ncpu : Int) : Option Int :=
  if ncpu > 1 then some ncpu else none

/-- Per-frame dispatch: with no pool the detectors are processed serially
in the caller (the `processFrame` path); with a pool the workers complete
in some order `completed` and the dispatcher merges their results back
into canonical order. -/
def dispatchFrame (pool : Option Int) (fails : String → Bool) (sat : Int)
    (frame completed : List (String × CCDData)) :
    List (String × List ExtractionResult) :=
  match pool with
  | none => (processFrame fails sat frame).1
  | some _ => mergeCanonical (frame.map (fun p => p.1))
      (collectResults fails sat completed)

/-- The frame loop of `reduce.py` lines 342-407, with the initial
calibration check inlined as in the source: `tzset` starts `false`; on the
first frame `initial_checks` runs (modelled from the spec as the predicate
`initOk`, since `initial_checks` lives in `hipercam/reduction.py`); if it
fails the loop `break`s before that frame is processed, else `tzset` is
set and every frame is processed through the per-frame pipeline. -/
def runLoopAux (initOk : List (String × CCDData) → Bool)
    (fails : String → Bool) (sat : Int) :
    Bool → List (List (String × CCDData)) →
    List (List (String × List ExtractionResult) × List String)
  | _, [] => []
  | true, fr :: rest =>
      processFrame fails sat fr :: runLoopAux initOk fails sat true rest
  | false, fr :: rest =>
      if initOk fr then
        processFrame fails sat fr :: runLoopAux initOk fails sat true rest
      else
        []

/-- The run's frame loop, started with `tzset = False` as in `reduce.py`
line 342. -/
def runLoop (initOk : List (String × CCDData) → Bool)
    (fails : String → Bool) (sat : Int)
    (frames : List (List (String × CCDData))) :
    List (List (String × List ExtractionResult) × List String) :=
  runLoopAux initOk fails sat false frames

/-- One point of a per-aperture display series (spec §3: timestamp, value,
error, quality bitmask). -/
structure TSEntry where
  t : ℚ
  value : ℚ
  err : ℚ
  qual : Nat
deriving DecidableEq, Repr

/-- Modelled from the spec: eviction from the oldest end of the display
buffer — drop leading (oldest) points while the span from them to the new
newest time `tnew` exceeds the keep window `w` (spec §4.4: "evicts points
from the buffer's oldest end until the span between the oldest remaining
and newest point is ≤ the configured duration"). -/
def dropOld (tnew w : ℚ) : List TSEntry → List TSEntry
  | [] => []
  | q :: rest => if tnew - q.t > w then dropOld tnew w rest else q :: rest

/-- Modelled from the spec: append one point to the Bounded Time-Series
Buffer (`tkeep` of `reduce.py` lines 223-227 configures `w`; `w = 0` keeps
everything). -/
def appendPoint (w : ℚ) (buf : List TSEntry) (p : TSEntry) : List TSEntry :=
  let b := buf ++ [p]
  if w = 0 then b else dropOld p.t w b

/-- A multi-CCD frame as `reduce.py` handles it: pixel values keyed by
detector name. -/
def MCCD : Type := List (String × List Int)

/-- `mccd - rfile.bias` (`MCCD.__sub__`): builds a new frame whose windows
are the pixelwise differences; the operands are untouched. -/
def mccdSub (a b : MCCD) : MCCD :=
  a.map (fun p =>
    (p.1, match b.find? (fun q => q.1 = p.1) with
          | some q => p.2.zipWith (fun x y => x - y) q.2
          | none => p.2))

/-- `mccd.copy()`: a fresh frame with the same pixel values. -/
def mccdCopy (a : MCCD) : MCCD := a

/-- `pccd /= rfile.flat`: in-place pixelwise division, applied to the
processed copy only (integer division stands in for the float division;
the claims below do not depend on the quotient values). -/
def mccdDiv (a b : MCCD) : MCCD :=
  a.map (fun p =>
    (p.1, match b.find? (fun q => q.1 = p.1) with
          | some q => p.2.zipWith (fun x y => x / y) q.2
          | none => p.2))

/-- The calibration step of `reduce.py` lines 382-393: `pccd` is bound to
`mccd - rfile.bias` (a new object) or to `mccd.copy()`; the flat is then
divided into `pccd` in place.  The returned pair is the final value of the
two variables `(mccd, pccd)`: the raw frame variable is never assigned nor
mutated. -/
def calibStep (mccd : MCCD) (bias flat : Option MCCD) : MCCD × MCCD :=
  let pccd :=
    match bias with
    | some b => mccdSub mccd b
    | none => mccdCopy mccd
  let pccd2 :=
    match flat with
    | some f => mccdDiv pccd f
    | none => pccd
  (mccd, pccd2)

end Hcam

open Hcam

/-- C1: for every processed frame, the per-frame output contains exactly one
ExtractionResult per aperture across all detectors: the merged output lists
the detectors in frame order and, per detector, one result per aperture
carrying that aperture's id in order — a failed detector contributes flagged
results, never omitted ones. -/
theorem c1_one_result_per_aperture (fails : String → Bool) (sat : Int)
    (frame : List (String × CCDData)) :
    ((processFrame fails sat frame).1).map
        (fun p => (p.1, p.2.map (fun r => r.apid)))
      = frame.map (fun p => (p.1, p.2.apers.map (fun a => a.id))) := by
  induction frame with
  | nil => rfl
  | cons p fr ih =>
    simp only [processFrame, List.map_cons, List.cons.injEq] at ih ⊢
    refine ⟨?_, ih⟩
    unfold procOneCCD
    by_cases hf : fails p.1 <;>
      simp [hf, extractFluxM, extractOne, flaggedResult, List.map_map,
        Function.comp]

/-- C2: a rejected fit leaves the aperture untouched.  First conjunct
(modelled from the spec, `moveApers`): when the fitted height is below the
minimum or the fitted width falls outside [min, max], the tracked state is
returned unchanged and the fit-quality flag is set.  Second conjunct
(`rtplot.py` lines 886-935): when the peak does not exceed the detection
threshold, every field of the fit state `fpar` is retained. -/
theorem c2_rejected_fit_noop :
    (∀ (hminRef fmin fmax : ℚ) (ap : TrackState) (fit : ApFit),
        (fit.height < hminRef ∨ fit.fwhm < fmin ∨ fmax < fit.fwhm) →
          moveAperUpdate hminRef fmin fmax ap fit = (ap, true))
    ∧ (∀ (method : FitMethod) (fpar : Fpar) (peak hmin dist x y fw be : ℚ),
        peak ≤ hmin →
          rtplotUpdate method fpar peak hmin dist x y fw be = fpar) := by
  constructor
  · intro hminRef fmin fmax ap fit hrej
    unfold moveAperUpdate
    rw [if_pos hrej]
  · intro method fpar peak hmin dist x y fw be hle
    unfold rtplotUpdate
    rw [if_neg]
    intro hcon
    exact absurd hcon.1 (not_lt.mpr hle)

/-- Witness for C2 at concrete inputs: a fit with height 4 below minimum 5
leaves the tracked state (0, 0, 2, 3) unchanged with the flag set, and an
`rtplot` fit whose peak 3 does not exceed threshold 3 leaves `fpar`
unchanged. -/
theorem c2_rejected_fit_noop_witness :
    moveAperUpdate 5 1 3 ⟨0, 0, 2, 3⟩ ⟨4, 9, 9, 2, 3⟩ = (⟨0, 0, 2, 3⟩, true)
    ∧ rtplotUpdate .g ⟨1, 2, "E", 1, 5, 2, 3⟩ 3 3 9 7 7 7 7
        = ⟨1, 2, "E", 1, 5, 2, 3⟩ :=
  ⟨c2_rejected_fit_noop.1 5 1 3 ⟨0, 0, 2, 3⟩ ⟨4, 9, 9, 2, 3⟩
      (Or.inl (by norm_num)),
   c2_rejected_fit_noop.2 .g ⟨1, 2, "E", 1, 5, 2, 3⟩ 3 3 9 7 7 7 7
      (by norm_num)⟩

/-- C7: if some pixel of the aperture is at or above the saturation level in
the retained raw frame, the aperture's result has its saturation flag set,
the result is still present (one per aperture, no exception path), the flux
is still the computed sum over the processed pixels, and the saturation
judgement does not depend on the debiased/flat-fielded copy at all. -/
theorem c7_saturation_flag (sat : Int) (d : CCDData) (ap : Aper) (i : Nat)
    (hap : ap ∈ d.apers) (hi : i ∈ ap.mask) (hs : sat ≤ d.raw.getD i 0) :
    (extractOne sat d ap).saturated = true
    ∧ extractOne sat d ap ∈ extractFluxM sat d
    ∧ (extractOne sat d ap).flux
        = (ap.mask.map (fun j => d.proc.getD j 0)).sum
    ∧ ∀ proc2 : List Int,
        (extractOne sat { d with proc := proc2 } ap).saturated
          = (extractOne sat d ap).saturated := by
  refine ⟨?_, ?_, rfl, fun proc2 => rfl⟩
  · show ap.mask.any (fun j => decide (sat ≤ d.raw.getD j 0)) = true
    exact List.any_eq_true.mpr ⟨i, hi, by simpa using hs⟩
  · exact List.mem_map.mpr ⟨ap, hap, rfl⟩

/-- Witness for C7: a one-pixel aperture over a raw value 150 with
saturation level 100 yields a saturated result whose flux is the processed
value 7. -/
theorem c7_saturation_flag_witness :
    (extractOne 100 ⟨[150], [7], [⟨1, [0]⟩]⟩ ⟨1, [0]⟩).saturated = true
    ∧ extractOne 100 ⟨[150], [7], [⟨1, [0]⟩]⟩ ⟨1, [0]⟩
        ∈ extractFluxM 100 ⟨[150], [7], [⟨1, [0]⟩]⟩
    ∧ (extractOne 100 ⟨[150], [7], [⟨1, [0]⟩]⟩ ⟨1, [0]⟩).flux
        = ([0].map (fun j => [(7 : Int)].getD j 0)).sum
    ∧ ∀ proc2 : List Int,
        (extractOne 100 ⟨[150], proc2, [⟨1, [0]⟩]⟩ ⟨1, [0]⟩).saturated
          = (extractOne 100 ⟨[150], [7], [⟨1, [0]⟩]⟩ ⟨1, [0]⟩).saturated :=
  c7_saturation_flag 100 ⟨[150], [7], [⟨1, [0]⟩]⟩ ⟨1, [0]⟩ 0
    (by simp) (by simp) (by norm_num)

/-- C8: `reduce.py` creates a worker pool only when the configured `ncpu`
is strictly greater than 1; with `ncpu` 0 or 1 no pool exists and the
per-frame dispatch runs the serial path in the caller. -/
theorem c8_pool_only_above_one :
    mkPool 0 = none ∧ mkPool 1 = none
    ∧ (∀ n : Int, (mkPool n).isSome = true ↔ 1 < n)
    ∧ ∀ (fails : String → Bool) (sat : Int)
        (frame completed : List (String × CCDData)),
        dispatchFrame none fails sat frame completed
          = (processFrame fails sat frame).1 := by
  refine ⟨rfl, rfl, ?_, fun fails sat frame completed => rfl⟩
  intro n
  unfold mkPool
  by_cases h : 1 < n <;> simp [h]

/-- C9: the calibration step of `reduce.py` never mutates the incoming raw
frame: bias subtraction and flat-fielding act on a separately produced
processed copy, and the raw-frame variable after the step is the very frame
that came in. -/
theorem c9_raw_frame_unchanged (mccd : MCCD) (bias flat : Option MCCD) :
    (calibStep mccd bias flat).1 = mccd := rfl

/-- The number of frames the loop processes does not depend on the
per-detector failure oracle or the saturation level (helper for C6). -/
theorem runLoopAux_length_indep (initOk : List (String × CCDData) → Bool)
    (f1 f2 : String → Bool) (s1 s2 : Int) :
    ∀ (b : Bool) (frames : List (List (String × CCDData))),
      (runLoopAux initOk f1 s1 b frames).length
        = (runLoopAux initOk f2 s2 b frames).length := by
  intro b frames
  induction frames generalizing b with
  | nil => cases b <;> rfl
  | cons fr rest ih =>
    cases b with
    | true => simpa [runLoopAux] using ih true
    | false =>
      by_cases h : initOk fr
      · simpa [runLoopAux, h] using ih true
      · simp [runLoopAux, h]

/-- C6: if the initial per-run setup check fails on the first frame, the run
halts with no frame processed at all; per-aperture and per-detector
failures, in contrast, never shorten the run — the failure oracle does not
change how many frames the loop processes. -/
theorem c6_init_failure_halts (initOk : List (String × CCDData) → Bool)
    (fails : String → Bool) (sat : Int)
    (fr : List (String × CCDData))
    (rest : List (List (String × CCDData))) :
    (initOk fr = false → runLoop initOk fails sat (fr :: rest) = [])
    ∧ (runLoop initOk fails sat (fr :: rest)).length
        = (runLoop initOk (fun _ => false) sat (fr :: rest)).length := by
  constructor
  · intro h
    simp [runLoop, runLoopAux, h]
  · exact runLoopAux_length_indep initOk fails (fun _ => false) sat sat
      false (fr :: rest)

/-- Witness for C6: with a failing initial check, a one-frame run processes
nothing, and the frame count is unaffected by an oracle that fails every
detector. -/
theorem c6_init_failure_halts_witness :
    runLoop (fun _ => false) (fun _ => true) 100 [[("1", ⟨[5], [5], []⟩)]] = []
    ∧ (runLoop (fun _ => false) (fun _ => true) 100
          [[("1", ⟨[5], [5], []⟩)]]).length
        = (runLoop (fun _ => false) (fun _ => false) 100
          [[("1", ⟨[5], [5], []⟩)]]).length :=
  ⟨(c6_init_failure_halts (fun _ => false) (fun _ => true) 100
      [("1", ⟨[5], [5], []⟩)] []).1 rfl,
   (c6_init_failure_halts (fun _ => false) (fun _ => true) 100
      [("1", ⟨[5], [5], []⟩)] []).2⟩

/-- Eviction only removes a violating-span block from the oldest end
(helper for C4). -/
theorem dropOld_drops_violating (tnew w : ℚ) :
    ∀ l : List TSEntry, ∃ dropped : List TSEntry,
      l = dropped ++ dropOld tnew w l
      ∧ ∀ q ∈ dropped, w < tnew - q.t := by
  intro l
  induction l with
  | nil => exact ⟨[], rfl, by simp⟩
  | cons q rest ih =>
    by_cases h : tnew - q.t > w
    · obtain ⟨d, hd, hviol⟩ := ih
      refine ⟨q :: d, ?_, ?_⟩
      · simp [dropOld, h]
        exact hd
      · intro r hr
        rcases List.mem_cons.mp hr with h1 | h2
        · rw [h1]; exact h
        · exact hviol r h2
    · exact ⟨[], by simp [dropOld, h], by simp⟩

/-- After eviction the oldest remaining point satisfies the span constraint
(helper for C4). -/
theorem dropOld_head_span (tnew w : ℚ) :
    ∀ (l : List TSEntry) (q : TSEntry),
      (dropOld tnew w l).head? = some q → tnew - q.t ≤ w := by
  intro l
  induction l with
  | nil => intro q h; simp [dropOld] at h
  | cons x rest ih =>
    intro q h
    by_cases hx : tnew - x.t > w
    · exact ih q (by simpa [dropOld, hx] using h)
    · simp [dropOld, hx] at h
      rw [← h]
      exact not_lt.mp hx

/-- The newest point survives eviction as the last point of the buffer
(helper for C4). -/
theorem dropOld_last (w : ℚ) (hw : 0 ≤ w) (p : TSEntry) :
    ∀ l : List TSEntry, (dropOld p.t w (l ++ [p])).getLast? = some p := by
  intro l
  induction l with
  | nil =>
    have h0 : ¬ (p.t - p.t > w) := by
      rw [sub_self]
      exact not_lt.mpr hw
    simp only [List.nil_append, dropOld, if_neg h0]
    rfl
  | cons x rest ih =>
    by_cases hx : p.t - x.t > w
    · simpa [dropOld, hx] using ih
    · show (dropOld p.t w ((x :: rest) ++ [p])).getLast? = some p
      rw [List.cons_append]
      simp only [dropOld, if_neg hx]
      rw [← List.cons_append]
      exact List.getLast?_concat ((x :: rest))

/-- C4: appending to the Bounded Time-Series Buffer with keep window `w`:
with `w = 0` nothing is ever evicted; otherwise the newest point is always
retained as the last entry, only a block of oldest points is removed, every
removed point genuinely violates the span constraint (so a point exactly at
the boundary is never evicted and the oldest retained point is the earliest
one satisfying the constraint), and the span from the oldest retained point
to the newest is at most `w`. -/
theorem c4_buffer_keep_window (w : ℚ) (buf : List TSEntry) (p : TSEntry)
    (hw : 0 ≤ w) :
    (w = 0 → appendPoint w buf p = buf ++ [p])
    ∧ (appendPoint w buf p).getLast? = some p
    ∧ (∃ dropped : List TSEntry,
          buf ++ [p] = dropped ++ appendPoint w buf p
          ∧ ∀ q ∈ dropped, w < p.t - q.t)
    ∧ (w ≠ 0 → ∀ q : TSEntry,
          (appendPoint w buf p).head? = some q → p.t - q.t ≤ w) := by
  by_cases h0 : w = 0
  · subst h0
    refine ⟨fun _ => rfl, ?_, ⟨[], rfl, by simp⟩, fun hne => absurd rfl hne⟩
    simp [appendPoint]
  · have happ : appendPoint w buf p = dropOld p.t w (buf ++ [p]) := by
      simp [appendPoint, h0]
    refine ⟨fun h => absurd h h0, ?_, ?_, ?_⟩
    · rw [happ]
      exact dropOld_last w hw p buf
    · rw [happ]
      exact dropOld_drops_violating p.t w (buf ++ [p])
    · intro _ q hq
      rw [happ] at hq
      exact dropOld_head_span p.t w (buf ++ [p]) q hq

/-- Witness for C4 with keep window 5: appending a point at time 8 to a
buffer holding points at times 0 and 3 drops the point at 0 (span 8 > 5)
and keeps the boundary point at 3 (span exactly 5) as the oldest. -/
theorem c4_buffer_keep_window_witness :
    ((5 : ℚ) = 0 →
        appendPoint 5 [⟨0, 1, 1, 0⟩, ⟨3, 1, 1, 0⟩] ⟨8, 1, 1, 0⟩
          = [⟨0, 1, 1, 0⟩, ⟨3, 1, 1, 0⟩] ++ [⟨8, 1, 1, 0⟩])
    ∧ (appendPoint 5 [⟨0, 1, 1, 0⟩, ⟨3, 1, 1, 0⟩] ⟨8, 1, 1, 0⟩).getLast?
        = some ⟨8, 1, 1, 0⟩
    ∧ (∃ dropped : List TSEntry,
          [⟨0, 1, 1, 0⟩, ⟨3, 1, 1, 0⟩] ++ [⟨8, 1, 1, 0⟩]
            = dropped ++ appendPoint 5 [⟨0, 1, 1, 0⟩, ⟨3, 1, 1, 0⟩] ⟨8, 1, 1, 0⟩
          ∧ ∀ q ∈ dropped, (5 : ℚ) < (8 : ℚ) - q.t)
    ∧ ((5 : ℚ) ≠ 0 → ∀ q : TSEntry,
          (appendPoint 5 [⟨0, 1, 1, 0⟩, ⟨3, 1, 1, 0⟩] ⟨8, 1, 1, 0⟩).head?
            = some q → (8 : ℚ) - q.t ≤ 5) :=
  c4_buffer_keep_window 5 [⟨0, 1, 1, 0⟩, ⟨3, 1, 1, 0⟩] ⟨8, 1, 1, 0⟩
    (by norm_num)

/-- In an association list with distinct keys, `find?` by key returns the
unique entry carrying that key, wherever it sits (helper for C3). -/
theorem find_by_key_unique {β : Type} (c : String) :
    ∀ (l : List (String × β)), (l.map (fun p => p.1)).Nodup →
      ∀ x ∈ l, x.1 = c → l.find? (fun q => q.1 = c) = some x := by
  intro l
  induction l with
  | nil => intro _ x hx; exact absurd hx (List.not_mem_nil x)
  | cons h t ih =>
    intro hnd x hx hxc
    rw [List.map_cons, List.nodup_cons] at hnd
    obtain ⟨hhd, hnt⟩ := hnd
    by_cases hc : h.1 = c
    · have hx2 : x = h := by
        rcases List.mem_cons.mp hx with h1 | h2
        · exact h1
        · exfalso
          apply hhd
          have hm : x.1 ∈ t.map (fun p => p.1) := List.mem_map.mpr ⟨x, h2, rfl⟩
          rw [hxc, ← hc] at hm
          exact hm
      rw [hx2]
      exact List.find?_cons_of_pos _ (by simp [hc])
    · have hx2 : x ∈ t := by
        rcases List.mem_cons.mp hx with h1 | h2
        · exact absurd (h1 ▸ hxc) hc
        · exact h2
      rw [List.find?_cons_of_neg _ (by simpa using hc)]
      exact ih hnt x hx2 hxc

/-- Walking the canonical order and looking each detector up in the
collected results reassembles the serial per-frame map (helper for C3). -/
theorem mergeCanonical_of_find (fails : String → Bool) (sat : Int)
    (collected : List (String × List ExtractionResult)) :
    ∀ frame : List (String × CCDData),
      (∀ p ∈ frame, collected.find? (fun q => q.1 = p.1)
          = some (p.1, procOneCCD fails sat p.1 p.2)) →
      mergeCanonical (frame.map (fun p => p.1)) collected
        = frame.map (fun p => (p.1, procOneCCD fails sat p.1 p.2)) := by
  intro frame
  induction frame with
  | nil => intro _; rfl
  | cons p fr ih =>
    intro hfind
    have hp := hfind p (List.mem_cons_self p fr)
    have hrest : ∀ q ∈ fr, collected.find? (fun r => r.1 = q.1)
        = some (q.1, procOneCCD fails sat q.1 q.2) :=
      fun q hq => hfind q (List.mem_cons_of_mem p hq)
    simp only [mergeCanonical, List.map_cons, List.filterMap_cons, hp,
      Option.map_some]
    exact congrArg _ (ih hrest)

/-- C3: the merged per-frame output is determined by the frame's canonical
detector order alone — for any completion order of the per-detector workers
(any permutation of the frame's detectors), merging the collected results
back by detector name reproduces exactly the serial canonical-order output,
so two runs differing only in worker completion order produce identically
ordered merged output. -/
theorem c3_merge_canonical_order (fails : String → Bool) (sat : Int)
    (frame completed : List (String × CCDData))
    (hperm : frame.Perm completed)
    (hnd : (frame.map (fun p => p.1)).Nodup) :
    mergeCanonical (frame.map (fun p => p.1))
        (collectResults fails sat completed)
      = (processFrame fails sat frame).1 := by
  have hndc : ((collectResults fails sat completed).map
      (fun p => p.1)).Nodup := by
    have : (collectResults fails sat completed).map (fun p => p.1)
        = completed.map (fun p => p.1) := by
      simp [collectResults, List.map_map, Function.comp]
    rw [this]
    exact (hperm.map (fun p => p.1)).nodup hnd
  have hfind : ∀ p ∈ frame,
      (collectResults fails sat completed).find? (fun q => q.1 = p.1)
        = some (p.1, procOneCCD fails sat p.1 p.2) := by
    intro p hp
    have hmem : (p.1, procOneCCD fails sat p.1 p.2)
        ∈ collectResults fails sat completed :=
      List.mem_map.mpr ⟨p, hperm.mem_iff.mp hp, rfl⟩
    exact find_by_key_unique p.1 (collectResults fails sat completed) hndc
      (p.1, procOneCCD fails sat p.1 p.2) hmem rfl
  exact mergeCanonical_of_find fails sat (collectResults fails sat completed)
    frame hfind

/-- Witness for C3: a two-detector frame whose workers complete in reversed
order still merges into the canonical serial output. -/
theorem c3_merge_canonical_order_witness :
    mergeCanonical ["1", "2"]
      (collectResults (fun _ => false) 100
        ([("2", ⟨[2], [2], []⟩), ("1", ⟨[1], [1], []⟩)] :
          List (String × CCDData)))
      = (processFrame (fun _ => false) 100
          ([("1", ⟨[1], [1], []⟩), ("2", ⟨[2], [2], []⟩)] :
            List (String × CCDData))).1 :=
  c3_merge_canonical_order (fun _ => false) 100
    [("1", ⟨[1], [1], []⟩), ("2", ⟨[2], [2], []⟩)]
    [("2", ⟨[2], [2], []⟩), ("1", ⟨[1], [1], []⟩)]
    (List.Perm.swap ("2", (⟨[2], [2], []⟩ : CCDData)) ("1", ⟨[1], [1], []⟩) [])
    (by decide)

/-- A passed pairwise-clash sweep means no ordered pair of members clashes
(helper for C5). -/
theorem pairClashChk_false (clash : GItem → GItem → Bool) :
    ∀ l : List GItem, pairClashChk clash l = false →
      l.Pairwise (fun a b => clash a b = false) := by
  intro l
  induction l with
  | nil => intro _; exact List.Pairwise.nil
  | cons x rest ih =>
    intro h
    rw [pairClashChk, Bool.or_eq_false_iff] at h
    exact List.Pairwise.cons
      (fun b hb => by
        have := List.any_eq_false.mp h.1
        simpa using this b hb)
      (ih h.2)

/-- C5 (amended): `Group` enforces integer keys and the pairwise
non-clash sweep at construction, and type homogeneity at construction;
a successfully constructed group is homogeneous and clash-free.  On
insertion, the key and clash checks always run, but the type check is made
only against the `otype` recorded at construction — `__setitem__` never
updates `otype`, so a group constructed empty (`otype = None`) accepts
items of differing types and homogeneity is not an invariant of every
existing group. -/
theorem c5_group_checks :
    (∀ (clash : GItem → GItem → Bool) (pairs : List (PyKey × GItem))
        (g : Group), Group.init clash pairs = .ok g →
          Group.homogeneous g ∧ Group.noPairClash clash g)
    ∧ (∀ (clash : GItem → GItem → Bool) (g g2 : Group) (k : PyKey)
        (item : GItem), Group.setitemRun clash g k item = (g2, none) →
          (∀ t, g.otype = some t → item.tag = t)
          ∧ (∀ q ∈ g.entries, clash item q.2 = false)
          ∧ g2.otype = g.otype) := by
  constructor
  · intro clash pairs g hg
    unfold Group.init at hg
    cases hins : Group.insertAll clash { entries := [], otype := none } pairs
      with
    | error e =>
      rw [hins] at hg
      exact Except.noConfusion hg
    | ok g0 =>
      rw [hins] at hg
      dsimp only at hg
      cases hent : g0.entries with
      | nil =>
        rw [hent] at hg
        dsimp only at hg
        injection hg with hgg
        subst hgg
        constructor
        · intro p hp
          have hp2 : p ∈ g0.entries := hp
          rw [hent] at hp2
          exact absurd hp2 (List.not_mem_nil p)
        · show g0.entries.Pairwise _
          rw [hent]
          exact List.Pairwise.nil
      | cons hd rest =>
        obtain ⟨k0, it0⟩ := hd
        rw [hent] at hg
        dsimp only at hg
        split_ifs at hg with h1 h2
        · injection hg with hgg
          subst hgg
          have htag : ∀ r ∈ (k0, it0) :: rest, r.2.tag = it0.tag := by
            intro r hr
            rcases List.mem_cons.mp hr with hr1 | hr2
            · rw [hr1]
            · exact of_decide_eq_true (List.all_eq_true.mp h1 r hr2)
          have h2f : pairClashChk clash
              (((k0, it0) :: rest).map (fun p => p.2)) = false := by
            cases hb : pairClashChk clash
              (((k0, it0) :: rest).map (fun p => p.2))
            · rfl
            · exact absurd hb h2
          constructor
          · intro p hp q hq
            have hp2 : p ∈ (k0, it0) :: rest := hp
            have hq2 : q ∈ (k0, it0) :: rest := hq
            rw [htag p hp2, htag q hq2]
          · show ((k0, it0) :: rest).Pairwise _
            have hpw := pairClashChk_false clash
              (((k0, it0) :: rest).map (fun p => p.2)) h2f
            rw [List.pairwise_map] at hpw
            exact hpw
  · intro clash g g2 k item h
    cases k with
    | str s =>
      simp only [Group.setitemRun] at h
      injection h with hfst hsnd
      exact Option.noConfusion hsnd
    | int n =>
      cases hot : g.otype with
      | some t =>
        simp only [Group.setitemRun, hot] at h
        split_ifs at h with h1 h2
        · injection h with hfst hsnd
          exact Option.noConfusion hsnd
        · injection h with hfst hsnd
          exact Option.noConfusion hsnd
        · injection h with hfst hsnd
          subst hfst
          have hcf : g.entries.any (fun q => clash item q.2) = false := by
            cases hb : g.entries.any (fun q => clash item q.2)
            · rfl
            · exact absurd hb h2
          refine ⟨fun t2 ht2 => ?_, ?_, ?_⟩
          · injection ht2 with ht3
            rw [← ht3]
            exact not_not.mp h1
          · intro q hq
            simpa using List.any_eq_false.mp hcf q hq
          · rfl
      | none =>
        simp only [Group.setitemRun, hot] at h
        split_ifs at h with h1
        · injection h with hfst hsnd
          exact Option.noConfusion hsnd
        · injection h with hfst hsnd
          subst hfst
          have hcf : g.entries.any (fun q => clash item q.2) = false := by
            cases hb : g.entries.any (fun q => clash item q.2)
            · rfl
            · exact absurd hb h1
          refine ⟨fun t2 ht2 => ?_, ?_, ?_⟩
          · exact Option.noConfusion ht2
          · intro q hq
            simpa using List.any_eq_false.mp hcf q hq
          · rfl

/-- Counterexample for C5 as stated: constructing a `Group` empty leaves
`otype = None`, and `__setitem__` never updates `otype`, so two insertions
of differently-typed items (with a clash method that never raises) both
succeed and the resulting group is not type-homogeneous — insertion does
not enforce type homogeneity for a group constructed empty. -/
theorem c5_group_checks_counterexample :
    Group.init (fun _ _ => false) [] = .ok { entries := [], otype := none }
    ∧ (Group.setitemRun (fun _ _ => false)
        { entries := [], otype := none } (.int 1) { tag := 0, val := 0 }).2
        = none
    ∧ (Group.setitemRun (fun _ _ => false)
        (Group.setitemRun (fun _ _ => false)
          { entries := [], otype := none } (.int 1)
          { tag := 0, val := 0 }).1
        (.int 2) { tag := 1, val := 0 }).2 = none
    ∧ ¬ Group.homogeneous (Group.setitemRun (fun _ _ => false)
        (Group.setitemRun (fun _ _ => false)
          { entries := [], otype := none } (.int 1)
          { tag := 0, val := 0 }).1
        (.int 2) { tag := 1, val := 0 }).1 := by
  refine ⟨rfl, rfl, rfl, fun h => ?_⟩
  have := h (1, { tag := 0, val := 0 }) (by simp [Group.setitemRun, odSet])
    (2, { tag := 1, val := 0 }) (by simp [Group.setitemRun, odSet])
  simp at this

/-- Witness for C5 (amended): a one-item construction yields a homogeneous,
clash-free group, and a successful insertion into a typed group matches
`otype`, clashes with nothing, and leaves `otype` unchanged. -/
theorem c5_group_checks_witness :
    (Group.homogeneous
        { entries := [(1, { tag := 5, val := 0 })], otype := some 5 }
      ∧ Group.noPairClash (fun _ _ => false)
        { entries := [(1, { tag := 5, val := 0 })], otype := some 5 })
    ∧ ((∀ t, (some 5 : Option Nat) = some t →
          ({ tag := 5, val := 7 } : GItem).tag = t)
      ∧ (∀ q ∈ ({ entries := [(1, { tag := 5, val := 0 })],
                  otype := some 5 } : Group).entries,
          (fun _ _ => false : GItem → GItem → Bool)
            { tag := 5, val := 7 } q.2 = false)
      ∧ (Group.setitemRun (fun _ _ => false)
          { entries := [(1, { tag := 5, val := 0 })], otype := some 5 }
          (.int 2) { tag := 5, val := 7 }).1.otype
        = ({ entries := [(1, { tag := 5, val := 0 })],
             otype := some 5 } : Group).otype) :=
  ⟨c5_group_checks.1 (fun _ _ => false)
      [(.int 1, { tag := 5, val := 0 })]
      { entries := [(1, { tag := 5, val := 0 })], otype := some 5 } rfl,
   c5_group_checks.2 (fun _ _ => false)
      { entries := [(1, { tag := 5, val := 0 })], otype := some 5 }
      { entries := [(1, { tag := 5, val := 0 }), (2, { tag := 5, val := 7 })],
        otype := some 5 }
      (.int 2) { tag := 5, val := 7 } rfl⟩

/-- C10: `Group.__setitem__` is atomic on error — whenever it raises (for a
non-integer key, a type mismatch against `otype`, or a clash with a current
member), the group's keys, values, order and `otype` are exactly as they
were before the call; the item is stored only after all checks pass. -/
theorem c10_setitem_atomic (clash : GItem → GItem → Bool) (g : Group)
    (k : PyKey) (item : GItem)
    (h : (Group.setitemRun clash g k item).2.isSome) :
    (Group.setitemRun clash g k item).1 = g := by
  cases k with
  | str s => rfl
  | int n =>
    cases hot : g.otype with
    | some t =>
      simp only [Group.setitemRun, hot] at h ⊢
      split_ifs at h ⊢ with h1 h2
      · rfl
      · rfl
      · simp at h
    | none =>
      simp only [Group.setitemRun, hot] at h ⊢
      split_ifs at h ⊢ with h1
      · rfl
      · simp at h

/-- Witness for C10: inserting an item that clashes with the current member
leaves the group exactly as it was. -/
theorem c10_setitem_atomic_witness :
    (Group.setitemRun (fun _ _ => true)
        { entries := [(1, { tag := 0, val := 0 })], otype := some 0 }
        (.int 2) { tag := 0, val := 1 }).1
      = { entries := [(1, { tag := 0, val := 0 })], otype := some 0 } :=
  c10_setitem_atomic (fun _ _ => true)
    { entries := [(1, { tag := 0, val := 0 })], otype := some 0 }
    (.int 2) { tag := 0, val := 1 } (by decide)
